import Mathlib

/-!
Verification of the cycle-relative normalization and support-level
detection routine of the btc_cycle_tracker repository, together with the
MVRV zone classifier and the long-term-holder supply filter.

The embedding follows the Python sources:
* `btc_accumulation_support.py` — per-cycle slice, day offsets,
  percent-from-top normalization, accumulation-window minimum (pandas
  `idxmin`, first occurrence), post-top minimum, strict `>` verdict.
* `stocks_accumulation.py` — per-phase slice, trading-day ordinals,
  percent-from-bottom normalization, `len(chunk) < 10` skip guard,
  first-200-day minimum, post-200 minimum, strict `>` verdict.
* `btc_dashboard.py` — `mvrv_zone` classifier, LTH-supply positivity
  filter.
* `btc_onchain_dashboard.py` — LTH-supply dropna + positivity filter.

Prices and percentages are modelled over `ℚ` (the Python floats carry
exact decimal data here and every claim is about order and arithmetic
structure, not rounding); dates are modelled as integer day numbers.
-/

deriving instance DecidableEq for Except

namespace BtcCycleTracker

/-- A normalized point: `offset` is days-from-anchor (calendar days in the
BTC script, trading-day ordinals in the stocks script), `price` the raw
value and `pct` the percent deviation from the reference price. -/
structure NPt where
  offset : ℤ
  price : ℚ
  pct : ℚ
deriving DecidableEq, Repr

/-- `chunk['pct'] = ((price - ref) / ref) * 100` — the normalization used
identically in both accumulation scripts. -/
def pctQ (ref v : ℚ) : ℚ := (v - ref) / ref * 100

/-- `PLOT_DAYS = 1100` in `btc_accumulation_support.py`. -/
def PLOT_DAYS : ℤ := 1100

/-- `end = h + PLOT_DAYS`, then `end = min(end, TODAY)` when the cycle is
not confirmed (`btc_accumulation_support.py` lines 80–82). -/
def cycleEnd (confirmed : Bool) (h today : ℤ) : ℤ :=
  if confirmed then h + PLOT_DAYS else min (h + PLOT_DAYS) today

/-- Slice `series` to dates in `[h, end]` and attach day offsets and
percents (`btc_accumulation_support.py` lines 84–88). -/
def normalizedChunk (series : List (ℤ × ℚ)) (h endd : ℤ) (ref : ℚ) :
    List NPt :=
  (series.filter (fun p => decide (h ≤ p.1) && decide (p.1 ≤ endd))).map
    (fun p => ⟨p.1 - h, p.2, pctQ ref p.2⟩)

/-- pandas `Series.idxmin`: the first point attaining the minimal `pct`,
absent on an empty series (where pandas raises). -/
def idxminPct : List NPt → Option NPt
  | [] => none
  | p :: rest =>
      match idxminPct rest with
      | none => some p
      | some m => some (if m.pct < p.pct then m else p)

/-- `accum = chunk[chunk['days'] <= 200]` — the early/accumulation
window. -/
def earlyWindow (chunk : List NPt) : List NPt :=
  chunk.filter (fun p => decide (p.offset ≤ 200))

/-- `post_top = chunk[chunk['days'] > top_day]` — the late window. -/
def lateWindow (topDay : ℤ) (chunk : List NPt) : List NPt :=
  chunk.filter (fun p => decide (topDay < p.offset))

/-- Per-cycle output of `btc_accumulation_support.py`: accumulation low
(`low_pct`, `low_day`, `low_price`), the optional bear-market low, and the
optional support verdict. -/
structure CycleResult where
  lowPct : ℚ
  lowDay : ℤ
  lowPrice : ℚ
  bearLow : Option NPt
  held : Option Bool
deriving DecidableEq, Repr

/-- The per-cycle computation of `btc_accumulation_support.py` lines
84–105.  `idxmin` on an empty accumulation window raises `ValueError`
("attempt to get argmin of an empty sequence"), modelled as `Except.error`;
an empty post-top window yields `bear_low = None` and `held = None`.
`held = bear_low_pct > low_pct` is the strict comparison of line 105. -/
def btcCycle (series : List (ℤ × ℚ)) (h topDay : ℤ) (ref : ℚ)
    (confirmed : Bool) (today : ℤ) : Except String CycleResult :=
  let chunk := normalizedChunk series h (cycleEnd confirmed h today) ref
  match idxminPct (earlyWindow chunk) with
  | none => .error "attempt to get argmin of an empty sequence"
  | some low =>
      let bearLow := idxminPct (lateWindow topDay chunk)
      .ok { lowPct := low.pct, lowDay := low.offset, lowPrice := low.price,
            bearLow := bearLow,
            held := bearLow.map (fun b => decide (low.pct < b.pct)) }

/-- Per-phase outcome of `stocks_accumulation.py`: either the phase was
silently skipped by the `len(chunk) < 10: continue` guard, or it produced
an accumulation low, an optional post-200 low and an optional verdict. -/
inductive StockOutcome where
  | skipped
  | result (lowPct : ℚ) (lowTd : ℤ) (lowPrice : ℚ)
      (afterLow : Option NPt) (held : Option Bool)
deriving DecidableEq, Repr

/-- The per-phase computation of `stocks_accumulation.py` lines 79–110:
the already-sliced price list is indexed by trading-day ordinal
(`chunk['td'] = range(len(chunk))`), normalized against its first price
(`bottom_price = chunk['price'].iloc[0]`), and a phase with fewer than 10
points is skipped (`continue`) — not an error. -/
def stocksPhase (prices : List ℚ) : Except String StockOutcome :=
  if prices.length < 10 then .ok .skipped
  else
    let ref := prices.headI
    let chunk := prices.enum.map (fun p => NPt.mk (p.1 : ℤ) p.2 (pctQ ref p.2))
    match idxminPct (earlyWindow chunk) with
    | none => .error "attempt to get argmin of an empty sequence"
    | some low =>
        let afterLow := idxminPct (lateWindow 200 chunk)
        .ok (.result low.pct low.offset low.price afterLow
              (afterLow.map (fun b => decide (low.pct < b.pct))))

/-- The four configured reference prices (`top_price`) of the `CYCLES`
table in `btc_accumulation_support.py`. -/
def CYCLES_topPrices : List ℚ := [1150, 20000, 69000, 124774]

/-- `mvrv_zone` from `btc_dashboard.py` lines 162–166: an if-chain over
the z-score returning a label and a display color. -/
def mvrv_zone (v : ℚ) : String × String :=
  if v < 0 then ("EXTREME FEAR", "#00ff88")
  else if v < 37/10 then ("FAIR VALUE", "#ffd700")
  else if v < 7 then ("CAUTION", "#ff8c00")
  else ("SELL ZONE", "#ff4444")

/-- LTH-supply loading in `btc_dashboard.py` lines 93–96: each raw row is
coerced to a number (`errors='coerce'` → `none` for unparseable) and only
rows with value `> 0` are kept (a `NaN` compares false, so it is dropped). -/
def lthDashboard (rows : List (Option ℚ)) : List ℚ :=
  rows.filterMap (fun o => o.bind (fun v => if 0 < v then some v else none))

/-- LTH-supply loading in `btc_onchain_dashboard.py` lines 42–46: coerce,
`dropna()`, then keep values `> 0`. -/
def lthOnchain (rows : List (Option ℚ)) : List ℚ :=
  (rows.filterMap id).filter (fun v => decide (0 < v))

/-- Claim C5 scenario series: `[(day0, 100), (day50, 40), (day200, 60),
(day400, 90), (day800, 30)]`. -/
def scenarioSeries1 : List (ℤ × ℚ) := [(0, 100), (50, 40), (200, 60), (400, 90), (800, 30)]

/-- Claim C5 second scenario: last point `(day800, 70)` instead of 30. -/
def scenarioSeries2 : List (ℤ × ℚ) := [(0, 100), (50, 40), (200, 60), (400, 90), (800, 70)]

/-!  ## Helper lemmas about the first-occurrence minimum  -/

/-- `idxminPct` is absent exactly on the empty window. -/
theorem idxminPct_eq_none_iff (l : List NPt) : idxminPct l = none ↔ l = [] := by
  cases l with
  | nil => simp [idxminPct]
  | cons p rest =>
      unfold idxminPct
      cases idxminPct rest <;> simp

/-- The selected extremum belongs to the window. -/
theorem idxminPct_mem {l : List NPt} :
    ∀ {m : NPt}, idxminPct l = some m → m ∈ l := by
  induction l with
  | nil => intro m hm; simp [idxminPct] at hm
  | cons p rest ih =>
      intro m hm
      unfold idxminPct at hm
      cases h : idxminPct rest with
      | none =>
          rw [h] at hm
          simp only [Option.some.injEq] at hm
          simp [← hm]
      | some m' =>
          rw [h] at hm
          simp only [Option.some.injEq] at hm
          by_cases hc : m'.pct < p.pct
          · rw [if_pos hc] at hm
            exact List.mem_cons_of_mem p (hm ▸ ih h)
          · rw [if_neg hc] at hm
            simp [← hm]

/-- The selected extremum attains the minimal percent of the window. -/
theorem idxminPct_le {l : List NPt} :
    ∀ {m : NPt}, idxminPct l = some m → ∀ q ∈ l, m.pct ≤ q.pct := by
  induction l with
  | nil => intro m hm; simp [idxminPct] at hm
  | cons p rest ih =>
      intro m hm
      unfold idxminPct at hm
      cases h : idxminPct rest with
      | none =>
          rw [h] at hm
          simp only [Option.some.injEq] at hm
          have hrest : rest = [] := (idxminPct_eq_none_iff rest).mp h
          subst hrest
          intro q hq
          simp only [List.mem_singleton] at hq
          simp [← hm, hq]
      | some m' =>
          rw [h] at hm
          simp only [Option.some.injEq] at hm
          intro q hq
          rcases List.mem_cons.mp hq with hq | hq
          · by_cases hc : m'.pct < p.pct
            · rw [if_pos hc] at hm
              subst hq
              exact hm ▸ le_of_lt hc
            · rw [if_neg hc] at hm
              subst hq
              exact hm ▸ le_refl _
          · by_cases hc : m'.pct < p.pct
            · rw [if_pos hc] at hm
              exact hm ▸ ih h q hq
            · rw [if_neg hc] at hm
              exact hm ▸ le_trans (not_lt.mp hc) (ih h q hq)

/-- Stability: when the window offsets are strictly increasing, every
other point attaining the minimal percent sits at a larger offset — the
first occurrence wins. -/
theorem idxminPct_first_sorted {l : List NPt} :
    l.Pairwise (fun a b => a.offset < b.offset) →
    ∀ {m : NPt}, idxminPct l = some m →
    ∀ q ∈ l, q.pct = m.pct → m.offset ≤ q.offset := by
  induction l with
  | nil => intro _ m hm; simp [idxminPct] at hm
  | cons p rest ih =>
      intro hs m hm
      unfold idxminPct at hm
      have hp := List.pairwise_cons.mp hs
      cases h : idxminPct rest with
      | none =>
          rw [h] at hm
          simp only [Option.some.injEq] at hm
          have hrest : rest = [] := (idxminPct_eq_none_iff rest).mp h
          subst hrest
          intro q hq _
          simp only [List.mem_singleton] at hq
          simp [← hm, hq]
      | some m' =>
          rw [h] at hm
          simp only [Option.some.injEq] at hm
          intro q hq hqpct
          rcases List.mem_cons.mp hq with hq | hq
          · by_cases hc : m'.pct < p.pct
            · rw [if_pos hc] at hm
              subst hq
              rw [← hm] at hqpct
              exact absurd (hqpct ▸ hc) (lt_irrefl _)
            · rw [if_neg hc] at hm
              subst hq
              exact hm ▸ le_refl _
          · by_cases hc : m'.pct < p.pct
            · rw [if_pos hc] at hm
              subst hm
              exact ih hp.2 h q hq hqpct
            · rw [if_neg hc] at hm
              exact hm ▸ le_of_lt (hp.1 q hq)

/-!  ## Characterizations of the two pipelines  -/

/-- How `btcCycle` succeeds: an accumulation low exists and the result
record is assembled exactly from it and the late-window minimum. -/
theorem btcCycle_ok_iff (series : List (ℤ × ℚ)) (h topDay : ℤ) (ref : ℚ)
    (confirmed : Bool) (today : ℤ) (r : CycleResult) :
    btcCycle series h topDay ref confirmed today = .ok r ↔
    ∃ low, idxminPct (earlyWindow
        (normalizedChunk series h (cycleEnd confirmed h today) ref)) = some low ∧
      r = { lowPct := low.pct, lowDay := low.offset, lowPrice := low.price,
            bearLow := idxminPct (lateWindow topDay
              (normalizedChunk series h (cycleEnd confirmed h today) ref)),
            held := (idxminPct (lateWindow topDay
              (normalizedChunk series h (cycleEnd confirmed h today) ref))).map
                (fun b => decide (low.pct < b.pct)) } := by
  simp only [btcCycle]
  cases hi : idxminPct (earlyWindow
      (normalizedChunk series h (cycleEnd confirmed h today) ref)) with
  | none => simp
  | some low => simp [eq_comm]

/-- How `btcCycle` fails: exactly when the accumulation window of the
sliced series is empty, with pandas' argmin error message. -/
theorem btcCycle_error_iff (series : List (ℤ × ℚ)) (h topDay : ℤ) (ref : ℚ)
    (confirmed : Bool) (today : ℤ) (e : String) :
    btcCycle series h topDay ref confirmed today = .error e ↔
    (earlyWindow (normalizedChunk series h (cycleEnd confirmed h today) ref) = [] ∧
      e = "attempt to get argmin of an empty sequence") := by
  simp only [btcCycle]
  cases hi : idxminPct (earlyWindow
      (normalizedChunk series h (cycleEnd confirmed h today) ref)) with
  | none =>
      have hnil := (idxminPct_eq_none_iff _).mp hi
      simp [hnil, eq_comm]
  | some low =>
      have hne : earlyWindow (normalizedChunk series h (cycleEnd confirmed h today) ref) ≠ [] := by
        intro hnil
        rw [hnil] at hi
        simp [idxminPct] at hi
      simp [hne]

/-- Whether the accumulation window of the sliced series is empty does not
depend on the reference price: the slice filter looks only at dates and
the window filter only at offsets. -/
theorem earlyWindow_normalizedChunk_eq_nil_iff (series : List (ℤ × ℚ))
    (h endd : ℤ) (ref : ℚ) :
    earlyWindow (normalizedChunk series h endd ref) = [] ↔
    (series.filter (fun p => decide (h ≤ p.1) && decide (p.1 ≤ endd))).filter
      (fun p => decide (p.1 - h ≤ 200)) = [] := by
  unfold earlyWindow normalizedChunk
  rw [List.filter_map]
  simp [Function.comp]

/-- How `stocksPhase` succeeds with a computed result: the phase is not
skipped, the first-200-trading-day low exists, and the record is assembled
from it and the post-200 minimum. -/
theorem stocksPhase_result_iff (prices : List ℚ) (lowPct : ℚ) (lowTd : ℤ)
    (lowPrice : ℚ) (afterLow : Option NPt) (held : Option Bool) :
    stocksPhase prices =
      .ok (.result lowPct lowTd lowPrice afterLow held) ↔
    (¬ prices.length < 10 ∧
      ∃ low, idxminPct (earlyWindow (prices.enum.map
          (fun p => NPt.mk (p.1 : ℤ) p.2 (pctQ prices.headI p.2)))) = some low ∧
        lowPct = low.pct ∧ lowTd = low.offset ∧ lowPrice = low.price ∧
        afterLow = idxminPct (lateWindow 200 (prices.enum.map
          (fun p => NPt.mk (p.1 : ℤ) p.2 (pctQ prices.headI p.2)))) ∧
        held = afterLow.map (fun b => decide (low.pct < b.pct))) := by
  simp only [stocksPhase]
  by_cases hlen : prices.length < 10
  · simp [hlen]
  · rw [if_neg hlen]
    cases hi : idxminPct (earlyWindow (prices.enum.map
        (fun p => NPt.mk (p.1 : ℤ) p.2 (pctQ prices.headI p.2)))) with
    | none => simp [hlen]
    | some low =>
        simp only [Except.ok.injEq, StockOutcome.result.injEq, hlen,
          not_false_iff, true_and, Option.some.injEq]
        constructor
        · rintro ⟨h1, h2, h3, h4, h5⟩
          exact ⟨low, rfl, h1.symm, h2.symm, h3.symm, h4.symm, by rw [← h5, h4]⟩
        · rintro ⟨low', hlow', h1, h2, h3, h4, h5⟩
          obtain rfl := hlow'
          exact ⟨h1.symm, h2.symm, h3.symm, h4.symm, by rw [h5, h4]⟩

/-!  ## Claims  -/

/-- Claim C1: for every cycle with a non-empty late window, the support
verdict equals the strict comparison `late_extremum.percent >
early_extremum.percent` — `held = some true` exactly when the late-window
minimum percent is strictly greater than the early-window minimum percent,
and exact equality of the two percents yields `held = some false`.  Stated
for both the BTC cycle pipeline and the stocks phase pipeline. -/
theorem support_held_iff_strict_gt :
    (∀ (series : List (ℤ × ℚ)) (h topDay : ℤ) (ref : ℚ) (confirmed : Bool)
        (today : ℤ) (r : CycleResult) (bl : NPt),
        btcCycle series h topDay ref confirmed today = .ok r →
        r.bearLow = some bl →
        (r.held = some true ↔ bl.pct > r.lowPct) ∧
        (bl.pct = r.lowPct → r.held = some false)) ∧
    (∀ (prices : List ℚ) (lowPct : ℚ) (lowTd : ℤ) (lowPrice : ℚ)
        (afterLow : Option NPt) (held : Option Bool) (bl : NPt),
        stocksPhase prices = .ok (.result lowPct lowTd lowPrice afterLow held) →
        afterLow = some bl →
        (held = some true ↔ bl.pct > lowPct) ∧
        (bl.pct = lowPct → held = some false)) := by
  constructor
  · intro series h topDay ref confirmed today r bl hok hbl
    obtain ⟨low, hlow, hr⟩ := (btcCycle_ok_iff _ _ _ _ _ _ _).mp hok
    have hbear : idxminPct (lateWindow topDay
        (normalizedChunk series h (cycleEnd confirmed h today) ref)) = some bl := by
      rw [hr] at hbl
      exact hbl
    have hheld : r.held = some (decide (low.pct < bl.pct)) := by
      rw [hr, hbear]
      rfl
    have hlowpct : r.lowPct = low.pct := by rw [hr]
    rw [hheld, hlowpct]
    constructor
    · simp
    · intro he
      simp [he]
  · intro prices lowPct lowTd lowPrice afterLow held bl hok hbl
    obtain ⟨hlen, low, hlow, h1, h2, h3, h4, h5⟩ :=
      (stocksPhase_result_iff _ _ _ _ _ _).mp hok
    have hheld : held = some (decide (low.pct < bl.pct)) := by
      rw [h5, hbl]
      rfl
    rw [hheld, h1]
    constructor
    · simp
    · intro he
      simp [he]

/-- Claim C1 witness at the concrete first scenario. -/
theorem support_held_iff_strict_gt_witness :
    ((CycleResult.mk (-60) 50 40 (some ⟨800, 30, -70⟩) (some false)).held = some true ↔
      (NPt.mk 800 30 (-70)).pct > (CycleResult.mk (-60) 50 40 (some ⟨800, 30, -70⟩) (some false)).lowPct) ∧
    ((NPt.mk 800 30 (-70)).pct = (CycleResult.mk (-60) 50 40 (some ⟨800, 30, -70⟩) (some false)).lowPct →
      (CycleResult.mk (-60) 50 40 (some ⟨800, 30, -70⟩) (some false)).held = some false) :=
  support_held_iff_strict_gt.1 scenarioSeries1 0 200 100 true 0
    (CycleResult.mk (-60) 50 40 (some ⟨800, 30, -70⟩) (some false)) ⟨800, 30, -70⟩
    (by norm_num [btcCycle, scenarioSeries1, normalizedChunk, cycleEnd, PLOT_DAYS,
      earlyWindow, lateWindow, idxminPct, pctQ, List.filter, List.map])
    rfl

/-- Claim C2: when no retained point lies strictly beyond the second
anchor offset (the late window is empty), the support verdict is absent
(`none`), never the boolean `false`, and the late extremum is likewise
absent.  Stated for both pipelines. -/
theorem empty_late_window_verdict_absent :
    (∀ (series : List (ℤ × ℚ)) (h topDay : ℤ) (ref : ℚ) (confirmed : Bool)
        (today : ℤ) (r : CycleResult),
        lateWindow topDay (normalizedChunk series h (cycleEnd confirmed h today) ref) = [] →
        btcCycle series h topDay ref confirmed today = .ok r →
        r.bearLow = none ∧ r.held = none ∧ r.held ≠ some false) ∧
    (∀ (prices : List ℚ) (lowPct : ℚ) (lowTd : ℤ) (lowPrice : ℚ)
        (afterLow : Option NPt) (held : Option Bool),
        lateWindow 200 (prices.enum.map
          (fun p => NPt.mk (p.1 : ℤ) p.2 (pctQ prices.headI p.2))) = [] →
        stocksPhase prices = .ok (.result lowPct lowTd lowPrice afterLow held) →
        afterLow = none ∧ held = none ∧ held ≠ some false) := by
  constructor
  · intro series h topDay ref confirmed today r hempty hok
    obtain ⟨low, hlow, rfl⟩ := (btcCycle_ok_iff _ _ _ _ _ _ _).mp hok
    rw [hempty]
    simp [idxminPct]
  · intro prices lowPct lowTd lowPrice afterLow held hempty hok
    obtain ⟨hlen, low, hlow, h1, h2, h3, h4, h5⟩ :=
      (stocksPhase_result_iff _ _ _ _ _ _).mp hok
    rw [hempty] at h4
    simp only [idxminPct] at h4
    subst h4
    simp [h5]

/-- Claim C2 witness: a two-point series that ends before the cycle top
has an empty late window, `bearLow = none` and `held = none`. -/
theorem empty_late_window_verdict_absent_witness :
    (CycleResult.mk (-60) 50 40 none none).bearLow = none ∧
    (CycleResult.mk (-60) 50 40 none none).held = none ∧
    (CycleResult.mk (-60) 50 40 none none).held ≠ some false :=
  empty_late_window_verdict_absent.1 [(0, 100), (50, 40)] 0 200 100 true 0
    (CycleResult.mk (-60) 50 40 none none)
    (by norm_num [lateWindow, normalizedChunk, cycleEnd, PLOT_DAYS, pctQ,
      List.filter, List.map])
    (by norm_num [btcCycle, normalizedChunk, cycleEnd, PLOT_DAYS,
      earlyWindow, lateWindow, idxminPct, pctQ, List.filter, List.map])

/-- Claim C3: for a sliced series with strictly increasing offsets, the
early extremum returned by the first-occurrence minimum over the early
window `[0, 200]` is a member of the window, attains the minimum percent,
and among all points attaining that minimum it has the smallest offset
(stable minimum — first occurrence in ascending offset order). -/
theorem early_extremum_stable_minimum (chunk : List NPt)
    (hs : chunk.Pairwise (fun a b => a.offset < b.offset)) (m : NPt)
    (hm : idxminPct (earlyWindow chunk) = some m) :
    m ∈ earlyWindow chunk ∧
    (∀ q ∈ earlyWindow chunk, m.pct ≤ q.pct) ∧
    (∀ q ∈ earlyWindow chunk, q.pct = m.pct → m.offset ≤ q.offset) := by
  have hsE : (earlyWindow chunk).Pairwise (fun a b => a.offset < b.offset) :=
    List.Pairwise.sublist (List.filter_sublist _) hs
  exact ⟨idxminPct_mem hm, idxminPct_le hm, idxminPct_first_sorted hsE hm⟩

/-- Claim C3 witness on a concrete sorted chunk with a duplicated minimum
percent: the offset-50 occurrence is selected. -/
theorem early_extremum_stable_minimum_witness :
    (⟨50, 40, -60⟩ : NPt) ∈ earlyWindow
      [⟨0, 100, 0⟩, ⟨50, 40, -60⟩, ⟨100, 40, -60⟩, ⟨200, 60, -40⟩, ⟨800, 30, -70⟩] :=
  (early_extremum_stable_minimum
    [⟨0, 100, 0⟩, ⟨50, 40, -60⟩, ⟨100, 40, -60⟩, ⟨200, 60, -40⟩, ⟨800, 30, -70⟩]
    (by norm_num [List.pairwise_cons])
    ⟨50, 40, -60⟩
    (by norm_num [earlyWindow, idxminPct, List.filter])).1

/-- Claim C4 counterexample: with `reference_price = -1 ≤ 0` the
computation silently produces a percent series and a normal result — it
does not fail fast. -/
theorem nonpositive_reference_no_failfast :
    btcCycle [(0, 100)] 0 200 (-1) true 0 =
      .ok { lowPct := -10100, lowDay := 0, lowPrice := 100,
            bearLow := none, held := none } := by
  norm_num [btcCycle, normalizedChunk, cycleEnd, PLOT_DAYS, earlyWindow,
    lateWindow, idxminPct, pctQ, List.filter, List.map]

/-- Claim C4 amended: the code performs no positivity check on the
reference price — whether the cycle computation fails is independent of
the reference price (failure only reflects an empty accumulation window) —
and every reference price actually configured in the BTC script's
`CYCLES` table is strictly positive, so in actual runs the division only
executes with a positive reference. -/
theorem reference_unchecked_configured_positive :
    (∀ (series : List (ℤ × ℚ)) (h topDay : ℤ) (ref ref2 : ℚ)
        (confirmed : Bool) (today : ℤ) (e : String),
        btcCycle series h topDay ref confirmed today = .error e →
        btcCycle series h topDay ref2 confirmed today = .error e) ∧
    (∀ p ∈ CYCLES_topPrices, (0:ℚ) < p) := by
  constructor
  · intro series h topDay ref ref2 confirmed today e he
    rw [btcCycle_error_iff] at he ⊢
    refine ⟨?_, he.2⟩
    rw [earlyWindow_normalizedChunk_eq_nil_iff]
    rw [earlyWindow_normalizedChunk_eq_nil_iff] at he
    exact he.1
  · intro p hp
    simp only [CYCLES_topPrices, List.mem_cons, List.mem_singleton] at hp
    rcases hp with rfl | rfl | rfl | hp
    · norm_num
    · norm_num
    · norm_num
    · simp at hp
      rw [hp]
      norm_num

/-- Claim C4 amended witness: the first configured reference price is
strictly positive. -/
theorem reference_unchecked_configured_positive_witness : (0:ℚ) < 1150 :=
  reference_unchecked_configured_positive.2 1150 (by norm_num [CYCLES_topPrices])

/-- Claim C5: on the spec scenario series the early extremum is the day-50
point at percent −60; the late window (offsets > 200) gives the day-800
point at percent −70 and verdict `false`; replacing the last value with 70
gives late percent −30 and verdict `true`. -/
theorem scenario_support_verdicts :
    btcCycle scenarioSeries1 0 200 100 true 0 =
      .ok { lowPct := -60, lowDay := 50, lowPrice := 40,
            bearLow := some ⟨800, 30, -70⟩, held := some false } ∧
    btcCycle scenarioSeries2 0 200 100 true 0 =
      .ok { lowPct := -60, lowDay := 50, lowPrice := 40,
            bearLow := some ⟨800, 70, -30⟩, held := some true } := by
  constructor <;>
    norm_num [btcCycle, scenarioSeries1, scenarioSeries2, normalizedChunk,
      cycleEnd, PLOT_DAYS, earlyWindow, lateWindow, idxminPct, pctQ,
      List.filter, List.map]

/-- Claim C6: with a strictly positive reference price, converting a
percent back to a value via `value = reference × (1 + percent / 100)`
recovers the original value exactly over exact arithmetic, and the percent
at the reference point itself is exactly 0. -/
theorem percent_roundtrip (ref v : ℚ) (href : 0 < ref) :
    ref * (1 + pctQ ref v / 100) = v ∧ pctQ ref ref = 0 := by
  have h0 : ref ≠ 0 := ne_of_gt href
  constructor
  · unfold pctQ
    field_simp
    ring
  · unfold pctQ
    simp

/-- Claim C6 witness at `reference = 100`, `value = 40`. -/
theorem percent_roundtrip_witness :
    (100:ℚ) * (1 + pctQ 100 40 / 100) = 40 ∧ pctQ 100 100 = 0 :=
  percent_roundtrip 100 40 (by norm_num)

/-- Claim C7 counterexample: the stocks script silently skips an empty
sliced series (`len(chunk) < 10` → `continue`); the run produces no error
and no output for that phase instead of failing. -/
theorem empty_series_silently_skipped :
    stocksPhase [] = .ok .skipped := by
  simp [stocksPhase]

/-- Claim C7 amended: in the BTC script an empty early window (in
particular an empty sliced series) is fatal — `idxmin` raises the
argmin-of-empty error and the run terminates; in the stocks script any
phase whose sliced series has fewer than 10 points, including an empty
series, is silently skipped and produces neither output nor an error. -/
theorem early_window_failure_and_skip :
    (∀ (series : List (ℤ × ℚ)) (h topDay : ℤ) (ref : ℚ) (confirmed : Bool)
        (today : ℤ),
        earlyWindow (normalizedChunk series h (cycleEnd confirmed h today) ref) = [] →
        btcCycle series h topDay ref confirmed today =
          .error "attempt to get argmin of an empty sequence") ∧
    (∀ prices : List ℚ, prices.length < 10 → stocksPhase prices = .ok .skipped) := by
  constructor
  · intro series h topDay ref confirmed today hnil
    rw [btcCycle_error_iff]
    exact ⟨hnil, rfl⟩
  · intro prices hlen
    simp [stocksPhase, hlen]

/-- Claim C7 amended witness: a three-point phase is skipped, and the BTC
pipeline on an empty series fails with the argmin error. -/
theorem early_window_failure_and_skip_witness :
    stocksPhase [5, 5, 5] = .ok .skipped :=
  early_window_failure_and_skip.2 [5, 5, 5] (by norm_num)

/-- Claim C8: the computation is deterministic — equal inputs (series,
anchor, top offset, reference price, confirmed flag and the explicitly
passed today value) give identical normalized series, cycle results and
stock phase outcomes; there is no dependence on implicit external state. -/
theorem computation_deterministic
    (s1 s2 : List (ℤ × ℚ)) (h1 h2 t1 t2 : ℤ) (r1 r2 : ℚ) (c1 c2 : Bool)
    (d1 d2 : ℤ) (ps1 ps2 : List ℚ)
    (heq : s1 = s2 ∧ h1 = h2 ∧ t1 = t2 ∧ r1 = r2 ∧ c1 = c2 ∧ d1 = d2 ∧ ps1 = ps2) :
    normalizedChunk s1 h1 (cycleEnd c1 h1 d1) r1 =
      normalizedChunk s2 h2 (cycleEnd c2 h2 d2) r2 ∧
    btcCycle s1 h1 t1 r1 c1 d1 = btcCycle s2 h2 t2 r2 c2 d2 ∧
    stocksPhase ps1 = stocksPhase ps2 := by
  obtain ⟨rfl, rfl, rfl, rfl, rfl, rfl, rfl⟩ := heq
  exact ⟨rfl, rfl, rfl⟩

/-- Claim C8 witness at the concrete scenario inputs. -/
theorem computation_deterministic_witness :
    normalizedChunk scenarioSeries1 0 (cycleEnd true 0 0) 100 =
      normalizedChunk scenarioSeries1 0 (cycleEnd true 0 0) 100 ∧
    btcCycle scenarioSeries1 0 200 100 true 0 =
      btcCycle scenarioSeries1 0 200 100 true 0 ∧
    stocksPhase [1] = stocksPhase [1] :=
  computation_deterministic scenarioSeries1 scenarioSeries1 0 0 200 200
    100 100 true true 0 0 [1] [1] ⟨rfl, rfl, rfl, rfl, rfl, rfl, rfl⟩

/-- Claim C9: the MVRV zone classifier is total and partitions the line:
it returns EXTREME FEAR iff `v < 0`, FAIR VALUE iff `0 ≤ v < 3.7`, CAUTION
iff `3.7 ≤ v < 7`, and SELL ZONE iff `7 ≤ v`. -/
theorem mvrv_zone_partition (v : ℚ) :
    ((mvrv_zone v).1 = "EXTREME FEAR" ↔ v < 0) ∧
    ((mvrv_zone v).1 = "FAIR VALUE" ↔ 0 ≤ v ∧ v < 37/10) ∧
    ((mvrv_zone v).1 = "CAUTION" ↔ 37/10 ≤ v ∧ v < 7) ∧
    ((mvrv_zone v).1 = "SELL ZONE" ↔ 7 ≤ v) := by
  unfold mvrv_zone
  split_ifs with hc1 hc2 hc3 <;>
    refine ⟨⟨?_, ?_⟩, ⟨?_, ?_⟩, ⟨?_, ?_⟩, ⟨?_, ?_⟩⟩ <;>
    intro hx <;>
    first
      | rfl
      | exact absurd hx (by decide)
      | linarith
      | exact ⟨by linarith, by linarith⟩

/-- Claim C10: every long-term-holder supply value retained by either
dashboard loader is strictly positive — unparseable and non-positive rows
are dropped. -/
theorem lth_supply_positive (rows : List (Option ℚ)) (v : ℚ) :
    (v ∈ lthDashboard rows → 0 < v) ∧ (v ∈ lthOnchain rows → 0 < v) := by
  constructor
  · intro hv
    unfold lthDashboard at hv
    obtain ⟨o, ho, hov⟩ := List.mem_filterMap.mp hv
    cases o with
    | none => simp [Option.bind] at hov
    | some w =>
        simp only [Option.bind] at hov
        by_cases hw : 0 < w
        · rw [if_pos hw] at hov
          exact (Option.some.inj hov) ▸ hw
        · rw [if_neg hw] at hov
          simp at hov
  · intro hv
    unfold lthOnchain at hv
    have hkeep := (List.mem_filter.mp hv).2
    simpa using hkeep

/-- Claim C10 witness: from rows `[some 5, some (-3), none]` the retained
value 5 is positive. -/
theorem lth_supply_positive_witness : (0:ℚ) < 5 :=
  (lth_supply_positive [some 5, some (-3), none] 5).1
    (by norm_num [lthDashboard, List.filterMap, Option.bind])

end BtcCycleTracker
